import Mathlib

/-
Verification of the PoopyPepe game simulation core (src/components/GameCanvas.js,
the 1024-high variant).  The physics integrator, the procedural gap generator,
the pipe movement / scoring / recycling loop and the collision evaluator are
embedded shallowly over exact rationals; JS Math.random() is modelled as an
explicit stream of rationals in [0,1) consumed in source order, and Math.floor
as the integer floor on the rationals.  Render-only state (clouds, ground
scroll offset, sprite drawing) is omitted: it never feeds back into the body,
the pipes, the score or the game state.
-/

namespace PoopyPepe

/-- Tuning constants, copied from the top of GameCanvas.js.  The decimal
literals of the source are written as explicit fractions (0.4 = 2/5,
-6.5 = -13/2, 4.025 = 161/40, 162.5 = 325/2) so that the kernel can
evaluate them. -/
def V_WIDTH : ℚ := 576

def V_HEIGHT : ℚ := 1024

def GRAVITY : ℚ := 2 / 5

def JUMP_VELOCITY : ℚ := -13 / 2

def MAX_FALL_SPEED : ℚ := 12

def SCROLL_SPEED : ℚ := 161 / 40

def PIPE_INTERVAL : ℚ := 350

def PIPE_GAP : ℚ := 325 / 2

def PLUSHPEPE_X : ℚ := 160

def PLUSHPEPE_SIZE : ℚ := 96

def PLUSHPEPE_HITBOX : ℚ := 48

def PIPE_WIDTH : ℚ := 104

def FIXED_GROUND_HEIGHT : ℚ := 224

/-- Ground line: ACTUAL_GROUND_Y = V_HEIGHT - FIXED_GROUND_HEIGHT = 800. -/
def ACTUAL_GROUND_Y : ℚ := V_HEIGHT - FIXED_GROUND_HEIGHT

def FART_DURATION : ℚ := 30

/-- Math.min on exact rationals, written with an explicit test so that the
kernel can evaluate it on concrete inputs. -/
def jmin (a b : ℚ) : ℚ := if a ≤ b then a else b

/-- Math.max on exact rationals. -/
def jmax (a b : ℚ) : ℚ := if a ≤ b then b else a

/-- Math.abs on exact rationals. -/
def jabs (a : ℚ) : ℚ := if a < 0 then -a else a

def MIN_PIPE_SHAFT_HEIGHT : ℚ := 80

def SAFE_MARGIN : ℚ := 50

/-- Lower bound of the safe gap range (randomGapY): 80 + 50 = 130. -/
def minGapY : ℚ := MIN_PIPE_SHAFT_HEIGHT + SAFE_MARGIN

/-- Upper bound of the safe gap range (randomGapY): 800 - 162.5 - 80 - 50 = 507.5. -/
def maxGapY : ℚ := ACTUAL_GROUND_Y - PIPE_GAP - MIN_PIPE_SHAFT_HEIGHT - SAFE_MARGIN

/-- One frame of the calculatePepeManeuverability simulation: an optimal flap
every 18 frames (at most 3), then gravity, terminal-velocity clamp, position
update, and tracking of the extreme up/down travel.
State: (position, velocity, maxUpwardTravel, maxDownwardTravel, flapsUsed). -/
def maneuverFrame (s : ℚ × ℚ × ℚ × ℚ × ℕ) (frame : ℕ) : ℚ × ℚ × ℚ × ℚ × ℕ :=
  let pos := s.1
  let vel := s.2.1
  let mUp := s.2.2.1
  let mDown := s.2.2.2.1
  let flaps := s.2.2.2.2
  let vel1 := if frame % 18 = 0 ∧ flaps < 3 then JUMP_VELOCITY else vel
  let flaps1 := if frame % 18 = 0 ∧ flaps < 3 then flaps + 1 else flaps
  let vel2 := vel1 + GRAVITY
  let vel3 := if vel2 > MAX_FALL_SPEED then MAX_FALL_SPEED else vel2
  let pos1 := pos + vel3
  let mUp1 := if pos1 < mUp then pos1 else mUp
  let mDown1 := if pos1 > mDown then pos1 else mDown
  (pos1, vel3, mUp1, mDown1, flaps1)

/-- calculatePepeManeuverability: 90 simulated frames, then the safety-scaled
climb range (85% of the extreme upward travel) and fall range (90% of the
extreme downward travel). -/
def maneuverability : ℚ × ℚ :=
  let fin := (List.range 90).foldl maneuverFrame (0, 0, 0, 0, 0)
  (jabs fin.2.2.1 * (85 / 100), jabs fin.2.2.2.1 * (90 / 100))

/-- MAX_UPWARD_DELTA = min(95, maneuverability.climb). -/
def MAX_UPWARD_DELTA : ℚ := jmin 95 maneuverability.1

/-- MAX_DOWNWARD_DELTA = min(100, maneuverability.fall). -/
def MAX_DOWNWARD_DELTA : ℚ := jmin 100 maneuverability.2

/-- minReachableY = max(minGapY, previousGapY - MAX_UPWARD_DELTA). -/
def reachMin (g : ℚ) : ℚ := jmax minGapY (g - MAX_UPWARD_DELTA)

/-- maxReachableY = min(maxGapY, previousGapY + MAX_DOWNWARD_DELTA). -/
def reachMax (g : ℚ) : ℚ := jmin maxGapY (g + MAX_DOWNWARD_DELTA)

/-- Lower end of the variation-tier sampling range chosen from variationType:
small (±30) with probability 0.1, medium (±60) with probability 0.3, otherwise
the full reachable range. -/
def tierLo (g vt : ℚ) : ℚ :=
  if vt < 1 / 10 then jmax (reachMin g) (g - 30)
  else if vt < 4 / 10 then jmax (reachMin g) (g - 60)
  else reachMin g

/-- Upper end of the variation-tier sampling range. -/
def tierHi (g vt : ℚ) : ℚ :=
  if vt < 1 / 10 then jmin (reachMax g) (g + 30)
  else if vt < 4 / 10 then jmin (reachMax g) (g + 60)
  else reachMax g

/-- The do-while resampling loop of randomGapY: draw
floor(min + random()*rangeSize) at stream index i; accept as soon as the draw
is at least 40 away from the previous gap, and give up after the fuel (19 more
attempts after the first, 20 total) is exhausted.  Returns the last draw and
the next unused stream index. -/
def sampleAttempts (lo hi g : ℚ) (rnd : ℕ → ℚ) : ℕ → ℕ → ℚ × ℕ
  | i, 0 => (((⌊lo + rnd i * (hi - lo)⌋ : ℤ) : ℚ), i + 1)
  | i, fuel + 1 =>
    let t : ℚ := ((⌊lo + rnd i * (hi - lo)⌋ : ℤ) : ℚ)
    if jabs (t - g) < 40 then sampleAttempts lo hi g rnd (i + 1) fuel else (t, i + 1)

/-- The forcing step of randomGapY, used when 20 samples all fell within 40px
of the previous gap: move exactly 40px up if reachable, else exactly 40px
down if reachable, else to the further of the two reachable-range endpoints. -/
def forceDelta (g : ℚ) : ℚ :=
  if g - 40 ≥ reachMin g then g - 40
  else if g + 40 ≤ reachMax g then g + 40
  else if jabs (reachMin g - g) > jabs (reachMax g - g) then reachMin g else reachMax g

/-- randomGapY, with the Math.random() stream explicit.  Returns the gap and
the number of stream values consumed.  With a previous gap: stream index 0 is
variationType, the loop draws from index 1 on; the result is forced to a 40px
delta if the loop failed, then clamped into [minGapY, maxGapY].  Without a
previous gap: one draw from the middle 50% of the safe range, then the same
clamp. -/
def randomGapYn (prev : Option ℚ) (rnd : ℕ → ℚ) : ℚ × ℕ :=
  match prev with
  | some g =>
    let lo := tierLo g (rnd 0)
    let hi := tierHi g (rnd 0)
    let s := sampleAttempts lo hi g rnd 1 19
    let t2 := if jabs (s.1 - g) < 40 then forceDelta g else s.1
    (jmax minGapY (jmin maxGapY t2), s.2)
  | none =>
    let size := maxGapY - minGapY
    let middleStart := minGapY + size * (25 / 100)
    let middleEnd := minGapY + size * (75 / 100)
    let t : ℚ := ((⌊middleStart + rnd 0 * (middleEnd - middleStart)⌋ : ℤ) : ℚ)
    (jmax minGapY (jmin maxGapY t), 1)

/-- The gap value returned by randomGapY. -/
def randomGapY (prev : Option ℚ) (rnd : ℕ → ℚ) : ℚ := (randomGapYn prev rnd).1

/-- The player body: plushpepe.current = { y, vel, rot }. -/
structure Pepe where
  y : ℚ
  vel : ℚ
  rot : ℚ
  deriving DecidableEq

/-- One pipe pair: { x, gapY, scored }. -/
structure Pipe where
  x : ℚ
  gapY : ℚ
  scored : Bool
  deriving DecidableEq

/-- The game state machine: ready | playing | gameover. -/
inductive GState where
  | ready
  | playing
  | gameover
  deriving DecidableEq

/-- The simulation state owned by the tick handler: gameState, the body, the
pipe pool, globalScore, the persisted best score, the fart-effect timer and
the master scroll position.  Clouds and the ground scroll offset are omitted:
they are render-only and never influence this state. -/
structure Game where
  state : GState
  pepe : Pepe
  pipes : List Pipe
  score : ℕ
  best : ℕ
  fartTimer : ℚ
  fartVisible : Bool
  scrollPos : ℚ
  deriving DecidableEq

/-- One physics tick on the body (update, PlushPepe physics section):
gravity is applied to the velocity, the velocity is clamped to
MAX_FALL_SPEED, the position is advanced by the new velocity, and the
rotation is recomputed from the new velocity as clamp(vel*7, -30, 90). -/
def physicsStep (step : ℚ) (p : Pepe) : Pepe :=
  let vel1 := p.vel + GRAVITY * step
  let vel2 := if vel1 > MAX_FALL_SPEED then MAX_FALL_SPEED else vel1
  let y1 := p.y + vel2 * step
  let rot1 := jmax (-30) (jmin 90 (vel2 * 7))
  ⟨y1, vel2, rot1⟩

/-- The ground-collision test of update:
plushpepe.current.y + PLUSHPEPE_HITBOX >= actualGroundY. -/
def groundHit (y : ℚ) : Bool := decide (y + PLUSHPEPE_HITBOX ≥ ACTUAL_GROUND_Y)

/-- Top edge of the body hitbox used by the pipe-collision test: the 48px
hitbox is centered in the 96px sprite, so it starts 24px below y. -/
def pepeTop (y : ℚ) : ℚ := y + (PLUSHPEPE_SIZE - PLUSHPEPE_HITBOX) / 2

/-- Bottom edge of the body hitbox used by the pipe-collision test. -/
def pepeBottom (y : ℚ) : ℚ := pepeTop y + PLUSHPEPE_HITBOX

/-- The pipe-collision test for one pipe (update, collision loop, with the
bounds of getPipeCollisionBounds inlined): AABB overlap of the centered body
hitbox with the top pipe [0, gapY - 2] and with the bottom pipe
[gapY + PIPE_GAP + 2, groundStartY], both inset horizontally by the 2px
margin. -/
def pipeHit (y : ℚ) (p : Pipe) : Bool :=
  let margin : ℚ := 2
  let left := PLUSHPEPE_X + (PLUSHPEPE_SIZE - PLUSHPEPE_HITBOX) / 2
  let right := left + PLUSHPEPE_HITBOX
  let top := pepeTop y
  let bottom := pepeBottom y
  let pLeft := p.x + margin
  let pRight := p.x + PIPE_WIDTH - margin
  let topPipeBottom := p.gapY - margin
  let bottomPipeTop := p.gapY + PIPE_GAP + margin
  let bottomPipeBottom := ACTUAL_GROUND_Y
  decide ((right > pLeft ∧ left < pRight ∧ bottom > 0 ∧ top < topPipeBottom) ∨
          (right > pLeft ∧ left < pRight ∧ bottom > bottomPipeTop ∧ top < bottomPipeBottom))

/-- handleGameOver: persist the best score only when the session score is
strictly greater, then enter the gameover state. -/
def bestUpdate (score best : ℕ) : ℕ × Bool :=
  if score > best then (score, true) else (best, false)

/-- The game-over transition applied to the whole state. -/
def handleGameOver (g : Game) : Game :=
  { g with best := (bestUpdate g.score g.best).1, state := GState.gameover }

/-- resetGame: the body returns to y = V_HEIGHT/2 - 100 with zero velocity,
the three pipes are rebuilt with a fresh unconstrained first gap, a second
gap anchored on the first and a third anchored on the second, the scroll and
fart effect are cleared, the score returns to 0 and the state to ready.  The
Math.random() stream is threaded through the three generator calls in source
order. -/
def resetGame (g : Game) (rnd : ℕ → ℚ) : Game :=
  let r1 := randomGapYn none rnd
  let g1 := r1.1
  let r2 := randomGapYn (some g1) (fun i => rnd (r1.2 + i))
  let g2 := r2.1
  let r3 := randomGapYn (some g2) (fun i => rnd (r1.2 + r2.2 + i))
  let g3 := r3.1
  { g with
    pepe := ⟨V_HEIGHT / 2 - 100, 0, 0⟩
    pipes := [⟨V_WIDTH + 50, g1, false⟩,
              ⟨V_WIDTH + 50 + PIPE_INTERVAL, g2, false⟩,
              ⟨V_WIDTH + 50 + PIPE_INTERVAL * 2, g3, false⟩]
    scrollPos := 0
    fartVisible := false
    fartTimer := 0
    score := 0
    state := GState.ready }

/-- The initial pipe pool built at process start (lines 519-524): the first
gap is unconstrained; the second pipe calls randomGapY(firstGapY); the third
pipe calls randomGapY(randomGapY(firstGapY)), an anchor drawn by a fresh
inner generator call rather than the second pipe's stored gap.  Stream
consumption follows the source evaluation order: first gap, second pipe's
call, then the third pipe's inner and outer calls. -/
def initPipes (rnd : ℕ → ℚ) : List Pipe :=
  let r1 := randomGapYn none rnd
  let firstGapY := r1.1
  let r2 := randomGapYn (some firstGapY) (fun i => rnd (r1.2 + i))
  let r3 := randomGapYn (some firstGapY) (fun i => rnd (r1.2 + r2.2 + i))
  let r4 := randomGapYn (some r3.1) (fun i => rnd (r1.2 + r2.2 + r3.2 + i))
  [⟨V_WIDTH + 50, firstGapY, false⟩,
   ⟨V_WIDTH + 50 + PIPE_INTERVAL, r2.1, false⟩,
   ⟨V_WIDTH + 50 + PIPE_INTERVAL * 2, r4.1, false⟩]

/-- Modelled from the spec (and from the source comment on line 523,
"Constrained to second"): the initial pool with the third pipe's gap anchored
on the second pipe's actual gap, as resetGame does. -/
def initPipesChained (rnd : ℕ → ℚ) : List Pipe :=
  let r1 := randomGapYn none rnd
  let firstGapY := r1.1
  let r2 := randomGapYn (some firstGapY) (fun i => rnd (r1.2 + i))
  let r3 := randomGapYn (some r2.1) (fun i => rnd (r1.2 + r2.2 + i))
  [⟨V_WIDTH + 50, firstGapY, false⟩,
   ⟨V_WIDTH + 50 + PIPE_INTERVAL, r2.1, false⟩,
   ⟨V_WIDTH + 50 + PIPE_INTERVAL * 2, r3.1, false⟩]

/-- The flap input handler: in ready it starts play and gives the initial
jump, in playing it overwrites the velocity with JUMP_VELOCITY (both also
trigger the fart effect), and in gameover it performs resetGame. -/
def flap (g : Game) (rnd : ℕ → ℚ) : Game :=
  match g.state with
  | GState.ready =>
    { g with state := GState.playing
             pepe := { g.pepe with vel := JUMP_VELOCITY }
             fartTimer := FART_DURATION
             fartVisible := true }
  | GState.playing =>
    { g with pepe := { g.pepe with vel := JUMP_VELOCITY }
             fartTimer := FART_DURATION
             fartVisible := true }
  | GState.gameover => resetGame g rnd

/-- Events recorded by the instrumented tick, in the order the corresponding
source statements execute inside update. -/
inductive TickEv where
  | integrate
  | boundaryCheck
  | pipeMove (i : ℕ)
  | pipeScore (i : ℕ)
  | pipeRecycle (i : ℕ)
  | pipeCollide (i : ℕ)
  deriving DecidableEq

/-- JS reduce with initial element pipes[0]: the rightmost pipe of the live
array, as used when a recycled pipe regenerates its gap. -/
def rightmostD (l : List Pipe) : Pipe :=
  l.foldl (fun acc p => if p.x > acc.x then p else acc) (l.headD ⟨0, 0, false⟩)

/-- The pipe movement / scoring / recycle forEach of update, one call per
pipe in index order.  acc holds the already-processed prefix of the live
array (needed for the rightmost-pipe lookup), i the index of the current
pipe, rest the untouched suffix, sc the running globalScore; the processed
pipes are returned in order.  Each pipe moves left by SCROLL_SPEED*step; it scores
when not yet scored and now left of PLUSHPEPE_X - PLUSHPEPE_HITBOX/2; when
fully off screen it advances by PIPE_INTERVAL*length, regenerates its gap
from the rightmost pipe of the live array (itself just moved) through the
gap oracle fg, and clears its scored flag.  Also returns the event list. -/
def processPipesT (step : ℚ) (fg : ℚ → ℚ) (len : ℕ) :
    List Pipe → ℕ → List Pipe → ℕ → List Pipe × ℕ × List TickEv
  | _, _, [], sc => ([], sc, [])
  | acc, i, p :: rest, sc =>
    let x1 := p.x - SCROLL_SPEED * step
    let fire := p.scored = false ∧ x1 < PLUSHPEPE_X - PLUSHPEPE_HITBOX / 2
    let scored1 := if fire then true else p.scored
    let sc1 := if fire then sc + 1 else sc
    let ev1 := if fire then [TickEv.pipeScore i] else []
    if x1 + PIPE_WIDTH < 0 then
      let x2 := x1 + PIPE_INTERVAL * (len : ℚ)
      let live := acc ++ { p with x := x2, scored := scored1 } :: rest
      let rm := rightmostD live
      let p2 : Pipe := ⟨x2, fg rm.gapY, false⟩
      let r := processPipesT step fg len (acc ++ [p2]) (i + 1) rest sc1
      (p2 :: r.1, r.2.1, TickEv.pipeMove i :: ev1 ++ TickEv.pipeRecycle i :: r.2.2)
    else
      let p2 : Pipe := ⟨x1, p.gapY, scored1⟩
      let r := processPipesT step fg len (acc ++ [p2]) (i + 1) rest sc1
      (p2 :: r.1, r.2.1, TickEv.pipeMove i :: ev1 ++ r.2.2)

/-- The pipe forEach applied to a whole pool. -/
def movePipes (step : ℚ) (fg : ℚ → ℚ) (ps : List Pipe) (sc : ℕ) :
    List Pipe × ℕ × List TickEv :=
  processPipesT step fg ps.length [] 0 ps sc

/-- The fart-effect timer countdown at the top of update, run in every
game state. -/
def fartStep (step : ℚ) (g : Game) : Game :=
  if g.fartVisible then
    (if g.fartTimer - step ≤ 0 then { g with fartVisible := false, fartTimer := 0 }
     else { g with fartTimer := g.fartTimer - step })
  else g

/-- The instrumented tick handler update(step).  The fart timer counts down
in every state; everything else only runs while playing.  Order as in the
source: scroll advance, body physics, ground then ceiling collision (each
ending the tick via handleGameOver), the pipe move/score/recycle forEach,
and finally the pipe collision forEach evaluated on the post-recycle pool.
The gap oracle fg stands for the randomGapY call of the recycle branch.
Returns the new state and the event trace. -/
def updateT (step : ℚ) (fg : ℚ → ℚ) (g : Game) : Game × List TickEv :=
  let g1 := fartStep step g
  if g1.state ≠ GState.playing then (g1, [])
  else
    let g2 := { g1 with scrollPos := g1.scrollPos + SCROLL_SPEED * step }
    let p := physicsStep step g2.pepe
    let g3 := { g2 with pepe := p }
    if groundHit p.y then (handleGameOver g3, [TickEv.integrate, TickEv.boundaryCheck])
    else if p.y < 0 then (handleGameOver g3, [TickEv.integrate, TickEv.boundaryCheck])
    else
      let r := movePipes step fg g3.pipes g3.score
      let g4 := { g3 with pipes := r.1, score := r.2.1 }
      let trace := TickEv.integrate :: TickEv.boundaryCheck ::
        r.2.2 ++ (List.range r.1.length).map TickEv.pipeCollide
      if r.1.any (fun q => pipeHit p.y q) then (handleGameOver g4, trace)
      else (g4, trace)

/-- The tick handler without its instrumentation. -/
def update (step : ℚ) (fg : ℚ → ℚ) (g : Game) : Game := (updateT step fg g).1

/-- JavaScript numbers restricted to the cases the NaN/Infinity claim needs:
exact finite values plus NaN and the two infinities. -/
inductive JNum where
  | nan
  | posInf
  | negInf
  | num (q : ℚ)
  deriving DecidableEq

/-- IEEE addition on JNum: NaN absorbs, opposite infinities give NaN.
Written as nested matches so that a NaN first operand short-circuits. -/
def JNum.add (a b : JNum) : JNum :=
  match a with
  | JNum.nan => JNum.nan
  | JNum.posInf =>
    match b with
    | JNum.nan => JNum.nan
    | JNum.negInf => JNum.nan
    | _ => JNum.posInf
  | JNum.negInf =>
    match b with
    | JNum.nan => JNum.nan
    | JNum.posInf => JNum.nan
    | _ => JNum.negInf
  | JNum.num x =>
    match b with
    | JNum.nan => JNum.nan
    | JNum.posInf => JNum.posInf
    | JNum.negInf => JNum.negInf
    | JNum.num y => JNum.num (x + y)

/-- IEEE multiplication on JNum: NaN absorbs, infinity times zero is NaN. -/
def JNum.mul (a b : JNum) : JNum :=
  match a with
  | JNum.nan => JNum.nan
  | JNum.posInf =>
    match b with
    | JNum.nan => JNum.nan
    | JNum.posInf => JNum.posInf
    | JNum.negInf => JNum.negInf
    | JNum.num y => if y > 0 then JNum.posInf else if y < 0 then JNum.negInf else JNum.nan
  | JNum.negInf =>
    match b with
    | JNum.nan => JNum.nan
    | JNum.posInf => JNum.negInf
    | JNum.negInf => JNum.posInf
    | JNum.num y => if y > 0 then JNum.negInf else if y < 0 then JNum.posInf else JNum.nan
  | JNum.num x =>
    match b with
    | JNum.nan => JNum.nan
    | JNum.posInf => if x > 0 then JNum.posInf else if x < 0 then JNum.negInf else JNum.nan
    | JNum.negInf => if x > 0 then JNum.negInf else if x < 0 then JNum.posInf else JNum.nan
    | JNum.num y => JNum.num (x * y)

/-- IEEE strict less-than: every comparison with NaN is false. -/
def JNum.lt (a b : JNum) : Bool :=
  match a with
  | JNum.nan => false
  | JNum.posInf => false
  | JNum.negInf =>
    match b with
    | JNum.nan => false
    | JNum.negInf => false
    | _ => true
  | JNum.num x =>
    match b with
    | JNum.nan => false
    | JNum.posInf => true
    | JNum.negInf => false
    | JNum.num y => decide (x < y)

/-- IEEE greater-than. -/
def JNum.gt (a b : JNum) : Bool := JNum.lt b a

/-- IEEE greater-or-equal: false whenever NaN is involved, otherwise the
negation of strict less-than. -/
def JNum.ge (a b : JNum) : Bool :=
  match a with
  | JNum.nan => false
  | _ =>
    match b with
    | JNum.nan => false
    | _ => !(JNum.lt a b)

/-- The body state over JS numbers for the fail-safe claim. -/
structure JBody where
  y : JNum
  vel : JNum
  state : GState
  deriving DecidableEq

/-- The physics-plus-boundary slice of update (lines 634-654) over JS-number
semantics: gravity, terminal-velocity clamp, position integration, then the
ground test y + PLUSHPEPE_HITBOX >= actualGroundY and the ceiling test
y < 0, each sending the state to gameover. -/
def tickJ (step : ℚ) (s : JBody) : JBody :=
  if s.state ≠ GState.playing then s
  else
    let vel1 := JNum.add s.vel (JNum.num (GRAVITY * step))
    let vel2 := if JNum.gt vel1 (JNum.num MAX_FALL_SPEED) then JNum.num MAX_FALL_SPEED else vel1
    let y1 := JNum.add s.y (JNum.mul vel2 (JNum.num step))
    if JNum.ge (JNum.add y1 (JNum.num PLUSHPEPE_HITBOX)) (JNum.num ACTUAL_GROUND_Y) then
      { y := y1, vel := vel2, state := GState.gameover }
    else if JNum.lt y1 (JNum.num 0) then
      { y := y1, vel := vel2, state := GState.gameover }
    else
      { y := y1, vel := vel2, state := GState.playing }

/-! Bridging lemmas between the executable Math.min/max/abs and the order
operations of Mathlib. -/

theorem jmin_eq (a b : ℚ) : jmin a b = min a b := by
  rw [jmin, min_def]

theorem jmax_eq (a b : ℚ) : jmax a b = max a b := by
  rw [jmax, max_def]

theorem jabs_eq (a : ℚ) : jabs a = |a| := by
  rw [jabs]
  split_ifs with h
  · exact (abs_of_neg h).symm
  · exact (abs_of_nonneg (le_of_not_lt h)).symm

theorem minGapY_val : minGapY = 130 := by
  norm_num [minGapY, MIN_PIPE_SHAFT_HEIGHT, SAFE_MARGIN]

theorem maxGapY_val : maxGapY = 1015 / 2 := by
  norm_num [maxGapY, ACTUAL_GROUND_Y, V_HEIGHT, FIXED_GROUND_HEIGHT, PIPE_GAP,
    MIN_PIPE_SHAFT_HEIGHT, SAFE_MARGIN]

theorem clamp_bounds (t : ℚ) :
    minGapY ≤ jmax minGapY (jmin maxGapY t) ∧ jmax minGapY (jmin maxGapY t) ≤ maxGapY := by
  rw [jmax_eq, jmin_eq]
  refine ⟨le_max_left _ _, max_le ?_ (min_le_left _ _)⟩
  rw [minGapY_val, maxGapY_val]
  norm_num

/-- C1: for every input (any previous-gap value, in or out of range, or no
previous gap) and every random stream, randomGapY lands in
[minGapY, maxGapY] = [130, 507.5], so the top shaft (the gap top itself) and
the bottom shaft (ground line minus gap bottom) are each at least the 80px
minimum shaft height plus the 50px safety margin, and neither pipe segment
has negative or sub-minimum height. -/
theorem randomGapY_safe_range (prev : Option ℚ) (rnd : ℕ → ℚ) :
    minGapY ≤ randomGapY prev rnd ∧ randomGapY prev rnd ≤ maxGapY ∧
    minGapY = 130 ∧ maxGapY = 1015 / 2 ∧
    MIN_PIPE_SHAFT_HEIGHT + SAFE_MARGIN ≤ randomGapY prev rnd ∧
    MIN_PIPE_SHAFT_HEIGHT + SAFE_MARGIN ≤ ACTUAL_GROUND_Y - (randomGapY prev rnd + PIPE_GAP) := by
  have key : minGapY ≤ randomGapY prev rnd ∧ randomGapY prev rnd ≤ maxGapY := by
    cases prev with
    | none => exact clamp_bounds _
    | some g => exact clamp_bounds _
  have h1 := key.1
  have h2 := key.2
  refine ⟨h1, h2, minGapY_val, maxGapY_val, ?_, ?_⟩
  · have : minGapY = MIN_PIPE_SHAFT_HEIGHT + SAFE_MARGIN := rfl
    linarith [h1]
  · rw [maxGapY_val] at h2
    have e1 : MIN_PIPE_SHAFT_HEIGHT + SAFE_MARGIN = 130 := by
      norm_num [MIN_PIPE_SHAFT_HEIGHT, SAFE_MARGIN]
    have e2 : ACTUAL_GROUND_Y = 800 := by
      norm_num [ACTUAL_GROUND_Y, V_HEIGHT, FIXED_GROUND_HEIGHT]
    have e3 : PIPE_GAP = 325 / 2 := rfl
    rw [e1, e2, e3]
    linarith

/-- C3: on every active tick the integrator applies, in order, gravity to the
velocity, the MAX_FALL_SPEED clamp, the position update using the new
velocity, and the cosmetic rotation clamp(vel*7, -30, 90) computed from the
new velocity with no feedback into position or velocity; hence for any
step > 0, iterating the integrator without jump input strictly increases the
velocity while it is below MAX_FALL_SPEED, and keeps it constant once it
equals MAX_FALL_SPEED.  The update handler applies exactly this integrator to
the body on every playing tick. -/
theorem physicsStep_contract (step : ℚ) (hs : 0 < step) (p : Pepe) (n : ℕ) :
    ((physicsStep step)^[n + 1] p).vel =
      min MAX_FALL_SPEED (((physicsStep step)^[n] p).vel + GRAVITY * step) ∧
    ((physicsStep step)^[n + 1] p).y =
      ((physicsStep step)^[n] p).y + ((physicsStep step)^[n + 1] p).vel * step ∧
    ((physicsStep step)^[n + 1] p).rot =
      max (-30) (min 90 (((physicsStep step)^[n + 1] p).vel * 7)) ∧
    (∀ r : ℚ,
      (physicsStep step ⟨((physicsStep step)^[n] p).y, ((physicsStep step)^[n] p).vel, r⟩).vel =
        ((physicsStep step)^[n + 1] p).vel ∧
      (physicsStep step ⟨((physicsStep step)^[n] p).y, ((physicsStep step)^[n] p).vel, r⟩).y =
        ((physicsStep step)^[n + 1] p).y) ∧
    (((physicsStep step)^[n] p).vel < MAX_FALL_SPEED →
      ((physicsStep step)^[n] p).vel < ((physicsStep step)^[n + 1] p).vel) ∧
    (((physicsStep step)^[n] p).vel = MAX_FALL_SPEED →
      ((physicsStep step)^[n + 1] p).vel = MAX_FALL_SPEED) ∧
    (∀ (fg : ℚ → ℚ) (g : Game), g.state = GState.playing →
      (update step fg g).pepe = physicsStep step g.pepe) := by
  have hit : (physicsStep step)^[n + 1] p = physicsStep step ((physicsStep step)^[n] p) :=
    Function.iterate_succ_apply' _ _ _
  set q := (physicsStep step)^[n] p with hq
  have hgrav : 0 < GRAVITY * step := by
    have : (0 : ℚ) < GRAVITY := by norm_num [GRAVITY]
    positivity
  have hvel : (physicsStep step q).vel = min MAX_FALL_SPEED (q.vel + GRAVITY * step) := by
    rw [physicsStep]
    by_cases h : q.vel + GRAVITY * step > MAX_FALL_SPEED
    · simp only [h, if_pos]
      exact (min_eq_left (le_of_lt h)).symm
    · simp only [h, if_neg, not_false_iff]
      exact (min_eq_right (le_of_not_lt h)).symm
  refine ⟨by rw [hit, hvel], ?_, ?_, ?_, ?_, ?_, ?_⟩
  · rw [hit]
    rfl
  · rw [hit, physicsStep, jmax_eq, jmin_eq]
  · intro r
    rw [hit]
    constructor
    · rfl
    · rfl
  · intro hlt
    rw [hit, hvel]
    exact lt_min hlt (by linarith)
  · intro heq
    rw [hit, hvel, heq]
    exact min_eq_left (by linarith)
  · intro fg g hpl
    rw [update, updateT]
    have hstate : (fartStep step g).state = GState.playing := by
      rw [fartStep]
      split_ifs <;> exact hpl
    have hpepe : (fartStep step g).pepe = g.pepe := by
      rw [fartStep]
      split_ifs <;> rfl
    simp only [hstate, hpepe, ne_eq, not_true_eq_false, if_false, ite_false]
    split_ifs <;> rfl

/-- C3 witness: the contract instantiated at step 1 from the spawn state. -/
theorem physicsStep_contract_witness :
    (0 : ℚ) < 1 ∧
    (((physicsStep 1)^[0 + 1] ⟨412, 0, 0⟩).vel =
      min MAX_FALL_SPEED (((physicsStep 1)^[0] (⟨412, 0, 0⟩ : Pepe)).vel + GRAVITY * 1) ∧
    ((physicsStep 1)^[0 + 1] ⟨412, 0, 0⟩).y =
      ((physicsStep 1)^[0] (⟨412, 0, 0⟩ : Pepe)).y + ((physicsStep 1)^[0 + 1] ⟨412, 0, 0⟩).vel * 1 ∧
    ((physicsStep 1)^[0 + 1] ⟨412, 0, 0⟩).rot =
      max (-30) (min 90 (((physicsStep 1)^[0 + 1] ⟨412, 0, 0⟩).vel * 7)) ∧
    (∀ r : ℚ,
      (physicsStep 1 ⟨((physicsStep 1)^[0] (⟨412, 0, 0⟩ : Pepe)).y,
        ((physicsStep 1)^[0] (⟨412, 0, 0⟩ : Pepe)).vel, r⟩).vel =
        ((physicsStep 1)^[0 + 1] ⟨412, 0, 0⟩).vel ∧
      (physicsStep 1 ⟨((physicsStep 1)^[0] (⟨412, 0, 0⟩ : Pepe)).y,
        ((physicsStep 1)^[0] (⟨412, 0, 0⟩ : Pepe)).vel, r⟩).y =
        ((physicsStep 1)^[0 + 1] ⟨412, 0, 0⟩).y) ∧
    (((physicsStep 1)^[0] (⟨412, 0, 0⟩ : Pepe)).vel < MAX_FALL_SPEED →
      ((physicsStep 1)^[0] (⟨412, 0, 0⟩ : Pepe)).vel < ((physicsStep 1)^[0 + 1] ⟨412, 0, 0⟩).vel) ∧
    (((physicsStep 1)^[0] (⟨412, 0, 0⟩ : Pepe)).vel = MAX_FALL_SPEED →
      ((physicsStep 1)^[0 + 1] ⟨412, 0, 0⟩).vel = MAX_FALL_SPEED) ∧
    (∀ (fg : ℚ → ℚ) (g : Game), g.state = GState.playing →
      (update 1 fg g).pepe = physicsStep 1 g.pepe)) :=
  ⟨by norm_num, physicsStep_contract 1 (by norm_num) ⟨412, 0, 0⟩ 0⟩

/-- C9: the persisted best score is written exactly when the final session
score is strictly greater than the stored best, the stored best never
decreases, the game-over transition stores max(best, score) and enters the
gameover state, and neither resetGame nor any flap input modifies the stored
best. -/
theorem bestScore_persistence (s b : ℕ) (g : Game) (rnd : ℕ → ℚ) :
    (bestUpdate s b).1 = max b s ∧
    (bestUpdate s b).2 = decide (b < s) ∧
    b ≤ (bestUpdate s b).1 ∧
    (handleGameOver g).best = max g.best g.score ∧
    (handleGameOver g).state = GState.gameover ∧
    (resetGame g rnd).best = g.best ∧
    (flap g rnd).best = g.best := by
  have hval : ∀ x y : ℕ, (bestUpdate x y).1 = max y x := by
    intro x y
    rw [bestUpdate]
    split_ifs with h
    · exact (max_eq_right (le_of_lt h)).symm
    · exact (max_eq_left (le_of_not_lt h)).symm
  refine ⟨hval s b, ?_, ?_, ?_, rfl, rfl, ?_⟩
  · rw [bestUpdate]
    split_ifs with h
    · simp [h]
    · simp [h]
  · rw [hval]
    exact le_max_left _ _
  · rw [handleGameOver]
    exact hval g.score g.best
  · obtain ⟨st, pe, pi, sc, be, ft, fv, sp⟩ := g
    cases st
    · rfl
    · rfl
    · rfl

/-- C10: the ground test fires exactly when y + 48 reaches the 800px ground
line, while the pipe test uses the 48px hitbox centered in the 96px sprite,
spanning [y+24, y+72]; hence for every y in [728, 752) the pipe hitbox
bottom y+72 already lies at or below the ground line while the ground test
does not fire. -/
theorem hitbox_mismatch (y : ℚ) :
    (groundHit y = true ↔ y + PLUSHPEPE_HITBOX ≥ ACTUAL_GROUND_Y) ∧
    pepeTop y = y + 24 ∧
    pepeBottom y = y + 72 ∧
    (728 ≤ y → y < 752 →
      pepeBottom y ≥ ACTUAL_GROUND_Y ∧ groundHit y = false) := by
  have htop : pepeTop y = y + 24 := by
    rw [pepeTop]
    norm_num [PLUSHPEPE_SIZE, PLUSHPEPE_HITBOX]
  have hbot : pepeBottom y = y + 72 := by
    rw [pepeBottom, htop, PLUSHPEPE_HITBOX]
    ring
  have hgv : ACTUAL_GROUND_Y = 800 := by
    norm_num [ACTUAL_GROUND_Y, V_HEIGHT, FIXED_GROUND_HEIGHT]
  refine ⟨by rw [groundHit]; exact decide_eq_true_iff, htop, hbot, ?_⟩
  intro h1 h2
  constructor
  · rw [hbot, hgv]
    linarith
  · rw [groundHit, decide_eq_false_iff_not]
    rw [hgv, PLUSHPEPE_HITBOX]
    intro hc
    linarith

/-- C10 witness: the mismatch zone at y = 730. -/
theorem hitbox_mismatch_witness :
    (728 : ℚ) ≤ 730 ∧ (730 : ℚ) < 752 ∧
    (pepeBottom 730 ≥ ACTUAL_GROUND_Y ∧ groundHit 730 = false) :=
  ⟨by norm_num, by norm_num, (hitbox_mismatch 730).2.2.2 (by norm_num) (by norm_num)⟩

/-- C4 counterexample: with the game in the gameover state, the flap entry
point does not set the velocity to JUMP_VELOCITY; it runs resetGame, which
zeroes the velocity.  So the claim that a flap sets verticalVelocity to
JUMP_VELOCITY unconditionally, regardless of the current game state, is
false. -/
theorem flap_gameover_counterexample :
    (flap ⟨GState.gameover, ⟨100, 5, 0⟩, [], 3, 7, 0, false, 0⟩ (fun _ => 0)).pepe.vel = 0 ∧
    (flap ⟨GState.gameover, ⟨100, 5, 0⟩, [], 3, 7, 0, false, 0⟩ (fun _ => 0)).pepe.vel ≠
      JUMP_VELOCITY := by
  constructor
  · rfl
  · intro h
    rw [show (flap ⟨GState.gameover, ⟨100, 5, 0⟩, [], 3, 7, 0, false, 0⟩
      (fun _ => 0)).pepe.vel = 0 from rfl] at h
    rw [JUMP_VELOCITY] at h
    norm_num at h

/-- C4 amended: in the ready and playing states (the states in which the
input is a jump rather than a restart) flap overwrites the velocity with
exactly JUMP_VELOCITY, whatever its prior value, and in ready it
simultaneously starts play; in the gameover state the same input runs
resetGame instead, which zeroes the velocity. -/
theorem flap_sets_jump_velocity (g : Game) (rnd : ℕ → ℚ)
    (h : g.state = GState.ready ∨ g.state = GState.playing) :
    (flap g rnd).pepe.vel = JUMP_VELOCITY ∧
    (g.state = GState.ready → (flap g rnd).state = GState.playing) := by
  obtain ⟨st, pe, pi, sc, be, ft, fv, sp⟩ := g
  rcases h with h | h
  · cases st
    · exact ⟨rfl, fun _ => rfl⟩
    · cases h
    · cases h
  · cases st
    · cases h
    · exact ⟨rfl, fun hc => by cases hc⟩
    · cases h

/-- C4 witness: a flap from the ready state with a nonzero prior velocity. -/
theorem flap_sets_jump_velocity_witness :
    ((⟨GState.ready, ⟨412, 9, 0⟩, [], 0, 0, 0, false, 0⟩ : Game).state = GState.ready ∨
      (⟨GState.ready, ⟨412, 9, 0⟩, [], 0, 0, 0, false, 0⟩ : Game).state = GState.playing) ∧
    ((flap ⟨GState.ready, ⟨412, 9, 0⟩, [], 0, 0, 0, false, 0⟩ (fun _ => 0)).pepe.vel =
      JUMP_VELOCITY ∧
    ((⟨GState.ready, ⟨412, 9, 0⟩, [], 0, 0, 0, false, 0⟩ : Game).state = GState.ready →
      (flap ⟨GState.ready, ⟨412, 9, 0⟩, [], 0, 0, 0, false, 0⟩ (fun _ => 0)).state =
        GState.playing)) :=
  ⟨Or.inl rfl,
    flap_sets_jump_velocity ⟨GState.ready, ⟨412, 9, 0⟩, [], 0, 0, 0, false, 0⟩ (fun _ => 0)
      (Or.inl rfl)⟩

/-- C8 counterexample: a tick starting from a NaN vertical position in the
playing state does not transition to the terminal state; both boundary
comparisons are false on NaN, so the handler keeps playing and the corrupted
NaN position survives into the next tick. -/
theorem nan_tick_counterexample :
    (tickJ 1 ⟨JNum.nan, JNum.num 0, GState.playing⟩).state ≠ GState.gameover ∧
    (tickJ 1 ⟨JNum.nan, JNum.num 0, GState.playing⟩).state = GState.playing ∧
    (tickJ 1 ⟨JNum.nan, JNum.num 0, GState.playing⟩).y = JNum.nan := by
  refine ⟨?_, ?_, ?_⟩ <;> with_unfolding_all decide

/-- C8 amended: a NaN position or velocity is never detected - every IEEE
comparison against NaN is false, so the active tick continues and propagates
NaN through the integration - while an infinite position does terminate: a
positive-infinity position satisfies the ground test and a negative-infinity
position the ceiling test.  No exception propagates (the handler is total). -/
theorem nan_inf_tick_behavior (v : JNum) (y0 q step : ℚ) :
    (tickJ step ⟨JNum.nan, v, GState.playing⟩).state = GState.playing ∧
    (tickJ step ⟨JNum.nan, v, GState.playing⟩).y = JNum.nan ∧
    (tickJ step ⟨JNum.num y0, JNum.nan, GState.playing⟩).state = GState.playing ∧
    (tickJ step ⟨JNum.num y0, JNum.nan, GState.playing⟩).y = JNum.nan ∧
    (tickJ step ⟨JNum.posInf, JNum.num q, GState.playing⟩).state = GState.gameover ∧
    (tickJ step ⟨JNum.negInf, JNum.num q, GState.playing⟩).state = GState.gameover := by
  refine ⟨?_, ?_, ?_, ?_, ?_, ?_⟩
  · rfl
  · rfl
  · rfl
  · rfl
  · cases hb : JNum.gt (JNum.add (JNum.num q) (JNum.num (GRAVITY * step))) (JNum.num MAX_FALL_SPEED)
    · simp only [tickJ, hb]
      rfl
    · simp only [tickJ, hb]
      rfl
  · cases hb : JNum.gt (JNum.add (JNum.num q) (JNum.num (GRAVITY * step))) (JNum.num MAX_FALL_SPEED)
    · simp only [tickJ, hb]
      rfl
    · simp only [tickJ, hb]
      rfl

set_option maxRecDepth 10000 in
theorem maxUp_val : MAX_UPWARD_DELTA = 95 := by
  with_unfolding_all decide

set_option maxRecDepth 10000 in
theorem maxDown_val : MAX_DOWNWARD_DELTA = 100 := by
  with_unfolding_all decide

theorem clamp_id (t : ℚ) (h1 : minGapY ≤ t) (h2 : t ≤ maxGapY) :
    jmax minGapY (jmin maxGapY t) = t := by
  rw [jmax_eq, jmin_eq, min_eq_right h2, max_eq_right h1]

/-- Every draw of the resampling loop stays inside the safe range when the
sampling interval does and the random stream stays in [0,1). -/
theorem sampleAttempts_bounds (lo hi g : ℚ) (rnd : ℕ → ℚ)
    (hr : ∀ n, 0 ≤ rnd n ∧ rnd n < 1)
    (h1 : minGapY ≤ lo) (h2 : lo ≤ hi) (h3 : hi ≤ maxGapY) :
    ∀ (fuel i : ℕ), minGapY ≤ (sampleAttempts lo hi g rnd i fuel).1 ∧
      (sampleAttempts lo hi g rnd i fuel).1 ≤ maxGapY := by
  have key : ∀ i : ℕ, minGapY ≤ ((⌊lo + rnd i * (hi - lo)⌋ : ℤ) : ℚ) ∧
      ((⌊lo + rnd i * (hi - lo)⌋ : ℤ) : ℚ) ≤ maxGapY := by
    intro i
    have hx1 : lo ≤ lo + rnd i * (hi - lo) := by
      have := mul_nonneg (hr i).1 (by linarith : (0:ℚ) ≤ hi - lo)
      linarith
    have hx2 : lo + rnd i * (hi - lo) ≤ hi := by
      have hle : rnd i * (hi - lo) ≤ 1 * (hi - lo) :=
        mul_le_mul_of_nonneg_right (le_of_lt (hr i).2) (by linarith)
      linarith
    constructor
    · rw [minGapY_val]
      have hcast : ((130 : ℤ) : ℚ) ≤ lo + rnd i * (hi - lo) := by
        have h130 : (130 : ℚ) ≤ lo := by rw [minGapY_val] at h1; exact h1
        push_cast
        linarith
      have hfl := Int.le_floor.mpr hcast
      have : ((130 : ℤ) : ℚ) ≤ ((⌊lo + rnd i * (hi - lo)⌋ : ℤ) : ℚ) := by exact_mod_cast hfl
      calc (130 : ℚ) = ((130 : ℤ) : ℚ) := by norm_num
        _ ≤ _ := this
    · calc ((⌊lo + rnd i * (hi - lo)⌋ : ℤ) : ℚ) ≤ lo + rnd i * (hi - lo) := Int.floor_le _
        _ ≤ hi := hx2
        _ ≤ maxGapY := h3
  intro fuel
  induction fuel with
  | zero => intro i; exact key i
  | succ n ih =>
    intro i
    simp only [sampleAttempts]
    split_ifs with h
    · exact ih (i + 1)
    · exact key i

/-- C2: for every previous gap g inside the safe range [130, 507.5] and every
random stream with values in [0,1), randomGapY(g) lands at least 40px away
from g.  (The boundary-clamping exception the claim allows for is vacuous
inside the safe range: with MAX_UPWARD_DELTA = 95 and MAX_DOWNWARD_DELTA =
100, forcing 40px up or down is always possible, so the generator - bounded
resampling followed by the forcing step - always delivers the 40px delta.) -/
theorem randomGapY_min_delta (g : ℚ) (rnd : ℕ → ℚ)
    (hg1 : minGapY ≤ g) (hg2 : g ≤ maxGapY)
    (hr : ∀ n, 0 ≤ rnd n ∧ rnd n < 1) :
    40 ≤ |randomGapY (some g) rnd - g| := by
  have hMU : MAX_UPWARD_DELTA = 95 := maxUp_val
  have hMD : MAX_DOWNWARD_DELTA = 100 := maxDown_val
  have hrm1 : minGapY ≤ reachMin g := by
    rw [reachMin, jmax_eq]
    exact le_max_left _ _
  have hrm2 : reachMin g ≤ g := by
    rw [reachMin, jmax_eq]
    exact max_le hg1 (by rw [hMU]; linarith)
  have hrx1 : g ≤ reachMax g := by
    rw [reachMax, jmin_eq]
    exact le_min hg2 (by rw [hMD]; linarith)
  have hrx2 : reachMax g ≤ maxGapY := by
    rw [reachMax, jmin_eq]
    exact min_le_left _ _
  have hlo1 : minGapY ≤ tierLo g (rnd 0) := by
    rw [tierLo]
    split_ifs with h1 h2
    · rw [jmax_eq]; exact le_trans hrm1 (le_max_left _ _)
    · rw [jmax_eq]; exact le_trans hrm1 (le_max_left _ _)
    · exact hrm1
  have hlo2 : tierLo g (rnd 0) ≤ g := by
    rw [tierLo]
    split_ifs with h1 h2
    · rw [jmax_eq]; exact max_le hrm2 (by linarith)
    · rw [jmax_eq]; exact max_le hrm2 (by linarith)
    · exact hrm2
  have hhi1 : g ≤ tierHi g (rnd 0) := by
    rw [tierHi]
    split_ifs with h1 h2
    · rw [jmin_eq]; exact le_min hrx1 (by linarith)
    · rw [jmin_eq]; exact le_min hrx1 (by linarith)
    · exact hrx1
  have hhi2 : tierHi g (rnd 0) ≤ maxGapY := by
    rw [tierHi]
    split_ifs with h1 h2
    · rw [jmin_eq]; exact le_trans (min_le_left _ _) hrx2
    · rw [jmin_eq]; exact le_trans (min_le_left _ _) hrx2
    · exact hrx2
  have hs := sampleAttempts_bounds (tierLo g (rnd 0)) (tierHi g (rnd 0)) g rnd hr
    hlo1 (le_trans hlo2 hhi1) hhi2 19 1
  have hunf : randomGapY (some g) rnd =
      jmax minGapY (jmin maxGapY
        (if jabs ((sampleAttempts (tierLo g (rnd 0)) (tierHi g (rnd 0)) g rnd 1 19).1 - g) < 40
         then forceDelta g
         else (sampleAttempts (tierLo g (rnd 0)) (tierHi g (rnd 0)) g rnd 1 19).1)) := rfl
  rw [hunf]
  set t := (sampleAttempts (tierLo g (rnd 0)) (tierHi g (rnd 0)) g rnd 1 19).1 with ht
  by_cases hc : jabs (t - g) < 40
  · rw [if_pos hc, forceDelta]
    split_ifs with hA hB hC
    · rw [clamp_id _ (le_trans hrm1 hA) (by linarith)]
      have e : g - 40 - g = -40 := by ring
      rw [e, abs_neg, abs_of_nonneg (by norm_num : (0:ℚ) ≤ 40)]
    · rw [clamp_id _ (by linarith) (le_trans hB hrx2)]
      have e : g + 40 - g = 40 := by ring
      rw [e, abs_of_nonneg (by norm_num : (0:ℚ) ≤ 40)]
    · exfalso
      have h1 : g - 40 < reachMin g := lt_of_not_ge hA
      have h2 : reachMax g < g + 40 := lt_of_not_le hB
      rw [reachMin, jmax_eq, hMU] at h1
      rw [reachMax, jmin_eq, hMD] at h2
      rcases lt_max_iff.mp h1 with h | h
      · rcases min_lt_iff.mp h2 with h' | h'
        · rw [minGapY_val] at h
          rw [maxGapY_val] at h'
          linarith
        · linarith
      · linarith
    · exfalso
      have h1 : g - 40 < reachMin g := lt_of_not_ge hA
      have h2 : reachMax g < g + 40 := lt_of_not_le hB
      rw [reachMin, jmax_eq, hMU] at h1
      rw [reachMax, jmin_eq, hMD] at h2
      rcases lt_max_iff.mp h1 with h | h
      · rcases min_lt_iff.mp h2 with h' | h'
        · rw [minGapY_val] at h
          rw [maxGapY_val] at h'
          linarith
        · linarith
      · linarith
  · rw [if_neg hc, clamp_id t hs.1 hs.2]
    have hge := le_of_not_lt hc
    rw [jabs_eq] at hge
    exact hge

/-- C2 witness: the minimum delta at the mid-range previous gap 300 with the
all-zero stream. -/
theorem randomGapY_min_delta_witness :
    minGapY ≤ (300 : ℚ) ∧ (300 : ℚ) ≤ maxGapY ∧
    40 ≤ |randomGapY (some 300) (fun _ => 0) - 300| :=
  ⟨by rw [minGapY_val]; norm_num, by rw [maxGapY_val]; norm_num,
    randomGapY_min_delta 300 (fun _ => 0)
      (by rw [minGapY_val]; norm_num) (by rw [maxGapY_val]; norm_num)
      (fun n => ⟨le_refl 0, by norm_num⟩)⟩

/-- The per-tick scoring test: a not-yet-scored pipe whose moved position has
crossed the threshold PLUSHPEPE_X - PLUSHPEPE_HITBOX/2 behind the body. -/
def scoresNow (step : ℚ) (p : Pipe) : Bool :=
  decide (p.scored = false ∧ p.x - SCROLL_SPEED * step < PLUSHPEPE_X - PLUSHPEPE_HITBOX / 2)

theorem fartStep_score (step : ℚ) (g : Game) : (fartStep step g).score = g.score := by
  rw [fartStep]
  split_ifs <;> rfl

theorem fartStep_pipes (step : ℚ) (g : Game) : (fartStep step g).pipes = g.pipes := by
  rw [fartStep]
  split_ifs <;> rfl

/-- The pipe forEach adds one point for exactly the pipes that pass the
scoring test this tick. -/
theorem processPipes_score (step : ℚ) (fg : ℚ → ℚ) (len : ℕ) :
    ∀ (rest acc : List Pipe) (i sc : ℕ),
      (processPipesT step fg len acc i rest sc).2.1 = sc + rest.countP (scoresNow step) := by
  intro rest
  induction rest with
  | nil =>
    intro acc i sc
    simp [processPipesT]
  | cons p rest ih =>
    intro acc i sc
    simp only [processPipesT]
    by_cases hf : (p.scored = false ∧
        p.x - SCROLL_SPEED * step < PLUSHPEPE_X - PLUSHPEPE_HITBOX / 2)
    · have hsn : scoresNow step p = true := by
        rw [scoresNow]
        exact decide_eq_true hf
      by_cases hrec : (p.x - SCROLL_SPEED * step + PIPE_WIDTH < 0)
      · rw [if_pos hrec]
        simp only
        rw [ih, if_pos hf, List.countP_cons, hsn, if_pos rfl]
        omega
      · rw [if_neg hrec]
        simp only
        rw [ih, if_pos hf, List.countP_cons, hsn, if_pos rfl]
        omega
    · have hsn : scoresNow step p = false := by
        rw [scoresNow]
        exact decide_eq_false hf
      by_cases hrec : (p.x - SCROLL_SPEED * step + PIPE_WIDTH < 0)
      · rw [if_pos hrec]
        simp only
        rw [ih, if_neg hf, List.countP_cons, hsn, if_neg Bool.false_ne_true]
        omega
      · rw [if_neg hrec]
        simp only
        rw [ih, if_neg hf, List.countP_cons, hsn, if_neg Bool.false_ne_true]
        omega

/-- A pipe that leaves the screen this tick comes out of the forEach advanced
by PIPE_INTERVAL times the pool size, with some regenerated gap and its
scored flag cleared. -/
theorem processPipes_recycle (step : ℚ) (fg : ℚ → ℚ) (len : ℕ) :
    ∀ (rest acc : List Pipe) (i sc k : ℕ) (p : Pipe),
      rest.get? k = some p →
      p.x - SCROLL_SPEED * step + PIPE_WIDTH < 0 →
      ∃ gy, (processPipesT step fg len acc i rest sc).1.get? k =
        some ⟨p.x - SCROLL_SPEED * step + PIPE_INTERVAL * (len : ℚ), gy, false⟩ := by
  intro rest
  induction rest with
  | nil =>
    intro acc i sc k p hget
    simp at hget
  | cons q rest ih =>
    intro acc i sc k p hget hrec
    cases k with
    | zero =>
      rw [List.get?_cons_zero] at hget
      injection hget with hq
      subst hq
      simp only [processPipesT]
      rw [if_pos hrec]
      exact ⟨_, rfl⟩
    | succ k =>
      rw [List.get?_cons_succ] at hget
      simp only [processPipesT]
      by_cases hq : (q.x - SCROLL_SPEED * step + PIPE_WIDTH < 0)
      · rw [if_pos hq]
        simp only [List.get?_cons_succ]
        exact ih _ (i + 1) _ k p hget hrec
      · rw [if_neg hq]
        simp only [List.get?_cons_succ]
        exact ih _ (i + 1) _ k p hget hrec

/-- The score never decreases across a tick, whatever the state. -/
theorem update_score_mono (step : ℚ) (fg : ℚ → ℚ) (g : Game) :
    g.score ≤ (update step fg g).score := by
  rw [update]
  simp only [updateT]
  split_ifs with h1 h2 h3 h4
  · rw [fartStep_score]
  · rw [handleGameOver]
    simp only
    rw [fartStep_score]
  · rw [handleGameOver]
    simp only
    rw [fartStep_score]
  · rw [handleGameOver]
    simp only
    rw [movePipes, processPipes_score]
    rw [fartStep_score, fartStep_pipes]
    exact Nat.le_add_right _ _
  · simp only
    rw [movePipes, processPipes_score]
    rw [fartStep_score, fartStep_pipes]
    exact Nat.le_add_right _ _

/-- C6: within a session the score is monotonically non-decreasing tick to
tick; the pipe forEach increments the score by exactly one for each pipe
whose scored flag transitions from false to true this tick (an
already-scored pipe never increments again until recycling resets it); a
pipe recycled this tick comes out with its scored flag reset to false; and
restarting resets the score to 0. -/
theorem score_transitions (step : ℚ) (fg : ℚ → ℚ) (g : Game) (rnd : ℕ → ℚ)
    (k : ℕ) (p : Pipe) :
    g.score ≤ (update step fg g).score ∧
    (movePipes step fg g.pipes g.score).2.1 = g.score + g.pipes.countP (scoresNow step) ∧
    (g.pipes.get? k = some p → p.x - SCROLL_SPEED * step + PIPE_WIDTH < 0 →
      ∃ gy, (movePipes step fg g.pipes g.score).1.get? k =
        some ⟨p.x - SCROLL_SPEED * step + PIPE_INTERVAL * (g.pipes.length : ℚ), gy, false⟩) ∧
    (resetGame g rnd).score = 0 := by
  refine ⟨update_score_mono step fg g, ?_, ?_, rfl⟩
  · rw [movePipes, processPipes_score]
  · intro hget hrec
    have := processPipes_recycle step fg g.pipes.length g.pipes [] 0 g.score k p hget hrec
    rwa [movePipes]

/-- C6 witness: a pool whose single pipe both scores and recycles on the same
tick - the score rises by exactly 1 and the recycled pipe comes back with its
scored flag cleared. -/
theorem score_transitions_witness :
    (⟨GState.playing, ⟨400, 0, 0⟩, [⟨-110, 300, false⟩], 5, 0, 0, false, 0⟩ : Game).pipes.get? 0 =
      some ⟨-110, 300, false⟩ ∧
    (-110 : ℚ) - SCROLL_SPEED * 1 + PIPE_WIDTH < 0 ∧
    (∃ gy, (movePipes 1 (fun q => q)
      (⟨GState.playing, ⟨400, 0, 0⟩, [⟨-110, 300, false⟩], 5, 0, 0, false, 0⟩ : Game).pipes
      (⟨GState.playing, ⟨400, 0, 0⟩, [⟨-110, 300, false⟩], 5, 0, 0, false, 0⟩ : Game).score).1.get? 0 =
        some ⟨(-110 : ℚ) - SCROLL_SPEED * 1 + PIPE_INTERVAL *
          (((⟨GState.playing, ⟨400, 0, 0⟩, [⟨-110, 300, false⟩], 5, 0, 0, false, 0⟩ : Game).pipes.length : ℚ)),
          gy, false⟩) :=
  ⟨rfl, by rw [SCROLL_SPEED, PIPE_WIDTH]; norm_num,
    (score_transitions 1 (fun q => q)
      ⟨GState.playing, ⟨400, 0, 0⟩, [⟨-110, 300, false⟩], 5, 0, 0, false, 0⟩ (fun _ => 0)
      0 ⟨-110, 300, false⟩).2.2.1 rfl
      (by rw [SCROLL_SPEED, PIPE_WIDTH]; norm_num)⟩

/-- The pipe move/score/recycle forEach never emits a collision event. -/
theorem processPipes_no_collide (step : ℚ) (fg : ℚ → ℚ) (len : ℕ) :
    ∀ (rest acc : List Pipe) (i sc : ℕ) (c : ℕ),
      TickEv.pipeCollide c ∉ (processPipesT step fg len acc i rest sc).2.2 := by
  intro rest
  induction rest with
  | nil =>
    intro acc i sc c
    simp [processPipesT]
  | cons q rest ih =>
    intro acc i sc c
    simp only [processPipesT]
    by_cases hf : (q.scored = false ∧
        q.x - SCROLL_SPEED * step < PLUSHPEPE_X - PLUSHPEPE_HITBOX / 2)
    · by_cases hrec : (q.x - SCROLL_SPEED * step + PIPE_WIDTH < 0)
      · rw [if_pos hrec]
        simp only [if_pos hf]
        intro hmem
        simp only [List.cons_append, List.nil_append, List.mem_cons, List.mem_append,
          List.mem_singleton] at hmem
        rcases hmem with h | h | h | h
        · exact TickEv.noConfusion h
        · exact TickEv.noConfusion h
        · exact TickEv.noConfusion h
        · exact ih _ _ _ _ h
      · rw [if_neg hrec]
        simp only [if_pos hf]
        intro hmem
        simp only [List.cons_append, List.nil_append, List.mem_cons, List.mem_append,
          List.mem_singleton] at hmem
        rcases hmem with h | h | h
        · exact TickEv.noConfusion h
        · exact TickEv.noConfusion h
        · exact ih _ _ _ _ h
    · by_cases hrec : (q.x - SCROLL_SPEED * step + PIPE_WIDTH < 0)
      · rw [if_pos hrec]
        simp only [if_neg hf]
        intro hmem
        simp only [List.cons_append, List.nil_append, List.mem_cons, List.mem_append,
          List.mem_singleton] at hmem
        rcases hmem with h | h | h
        · exact TickEv.noConfusion h
        · exact TickEv.noConfusion h
        · exact ih _ _ _ _ h
      · rw [if_neg hrec]
        simp only [if_neg hf]
        intro hmem
        simp only [List.cons_append, List.nil_append, List.mem_cons, List.mem_append,
          List.mem_singleton] at hmem
        rcases hmem with h | h
        · exact TickEv.noConfusion h
        · exact ih _ _ _ _ h

/-- In a trace of shape prefix-pipe-events then collision events, every
recycle event index precedes every collision event index. -/
theorem trace_order_aux (evs cevs : List TickEv)
    (hnc : ∀ c, TickEv.pipeCollide c ∉ evs)
    (hnr : ∀ r, TickEv.pipeRecycle r ∉ cevs) :
    ∀ (i j ri ci : ℕ),
      (TickEv.integrate :: TickEv.boundaryCheck :: (evs ++ cevs)).get? i =
        some (TickEv.pipeRecycle ri) →
      (TickEv.integrate :: TickEv.boundaryCheck :: (evs ++ cevs)).get? j =
        some (TickEv.pipeCollide ci) →
      i < j := by
  intro i j ri ci hri hcj
  match i, hri with
  | 0, h => exact absurd (Option.some.inj h) (fun hh => TickEv.noConfusion hh)
  | 1, h => exact absurd (Option.some.inj h) (fun hh => TickEv.noConfusion hh)
  | n + 2, h =>
    rw [List.get?_cons_succ, List.get?_cons_succ] at h
    match j, hcj with
    | 0, h' => exact absurd (Option.some.inj h') (fun hh => TickEv.noConfusion hh)
    | 1, h' => exact absurd (Option.some.inj h') (fun hh => TickEv.noConfusion hh)
    | m + 2, h' =>
      rw [List.get?_cons_succ, List.get?_cons_succ] at h'
      have hn : n < evs.length := by
        by_contra hcon
        push_neg at hcon
        rw [List.get?_append_right hcon] at h
        exact hnr ri (List.get?_mem h)
      have hm : evs.length ≤ m := by
        by_contra hcon
        push_neg at hcon
        rw [List.get?_append hcon] at h'
        exact hnc ci (List.get?_mem h')
      omega

/-- C5 amended: within one playing tick the trace starts with the
integration and the boundary checks, and every pipe-recycle event strictly
precedes every pipe-collision event - the collision forEach runs only after
the whole move/score/recycle forEach, so pipe collision is evaluated against
the body position of this tick's integration but against post-recycle
obstacle positions. -/
theorem tick_order (step : ℚ) (fg : ℚ → ℚ) (g : Game) :
    ((updateT step fg g).2 ≠ [] →
      (updateT step fg g).2.take 2 = [TickEv.integrate, TickEv.boundaryCheck]) ∧
    (∀ (i j ri ci : ℕ),
      (updateT step fg g).2.get? i = some (TickEv.pipeRecycle ri) →
      (updateT step fg g).2.get? j = some (TickEv.pipeCollide ci) → i < j) := by
  have hnr : ∀ r : ℕ,
      TickEv.pipeRecycle r ∉ (List.range (movePipes step fg (fartStep step g).pipes
        (fartStep step g).score).1.length).map TickEv.pipeCollide := by
    intro r hr
    rw [List.mem_map] at hr
    obtain ⟨a, _, ha⟩ := hr
    exact TickEv.noConfusion ha
  simp only [updateT]
  split_ifs with h1 h2 h3 h4
  · refine ⟨fun hne => absurd rfl hne, ?_⟩
    intro i j ri ci hri
    simp at hri
  · refine ⟨fun _ => rfl, ?_⟩
    intro i j ri ci hri hcj
    exfalso
    match i, hri with
    | 0, h => exact TickEv.noConfusion (Option.some.inj h)
    | 1, h => exact TickEv.noConfusion (Option.some.inj h)
    | n + 2, h => rw [List.get?_cons_succ, List.get?_cons_succ] at h; simp at h
  · refine ⟨fun _ => rfl, ?_⟩
    intro i j ri ci hri hcj
    exfalso
    match i, hri with
    | 0, h => exact TickEv.noConfusion (Option.some.inj h)
    | 1, h => exact TickEv.noConfusion (Option.some.inj h)
    | n + 2, h => rw [List.get?_cons_succ, List.get?_cons_succ] at h; simp at h
  · refine ⟨fun _ => rfl, ?_⟩
    exact trace_order_aux _ _
      (fun c => by rw [movePipes]; exact processPipes_no_collide step fg _ _ _ _ _ c) hnr
  · refine ⟨fun _ => rfl, ?_⟩
    exact trace_order_aux _ _
      (fun c => by rw [movePipes]; exact processPipes_no_collide step fg _ _ _ _ _ c) hnr

/-- A concrete playing state whose leftmost pipe recycles on the next tick. -/
def c5Game : Game :=
  ⟨GState.playing, ⟨400, 0, 0⟩,
    [⟨-110, 300, true⟩, ⟨240, 300, false⟩, ⟨590, 300, false⟩], 5, 0, 0, false, 0⟩

set_option maxRecDepth 10000 in
/-- C5 counterexample: on the tick from c5Game the recycle of pipe 0 happens
at trace index 3 while its collision evaluation happens at index 6, so the
claim that collision evaluation precedes obstacle recycling within the tick
is false. -/
theorem tick_order_counterexample :
    ¬ (∀ (i j ci ri : ℕ),
      (updateT 1 (fun _ => 300) c5Game).2.get? i = some (TickEv.pipeCollide ci) →
      (updateT 1 (fun _ => 300) c5Game).2.get? j = some (TickEv.pipeRecycle ri) →
      i < j) := by
  intro h
  have h63 := h 6 3 0 0 (by with_unfolding_all decide) (by with_unfolding_all decide)
  omega

set_option maxRecDepth 10000 in
/-- C5 witness: the amended ordering instantiated on the same tick - the
recycle at index 3 precedes the collision evaluation at index 6. -/
theorem tick_order_witness :
    (updateT 1 (fun _ => 300) c5Game).2.get? 3 = some (TickEv.pipeRecycle 0) ∧
    (updateT 1 (fun _ => 300) c5Game).2.get? 6 = some (TickEv.pipeCollide 0) ∧
    (3 : ℕ) < 6 :=
  ⟨by with_unfolding_all decide, by with_unfolding_all decide,
    (tick_order 1 (fun _ => 300) c5Game).2 3 6 0 0
      (by with_unfolding_all decide) (by with_unfolding_all decide)⟩

/-- The Math.random() stream exhibiting the broken initial-pool chaining:
values 0, 1/2, 0, 1/2, 9/10, 1/2, 0, 0, ... -/
def bugStream : ℕ → ℚ := fun n =>
  if n = 4 then 9 / 10
  else if n = 1 then 1 / 2
  else if n = 3 then 1 / 2
  else if n = 5 then 1 / 2
  else 0

set_option maxRecDepth 100000 in
/-- C7: at process start the third pipe of the initial pool is anchored on a
fresh randomGapY(firstGapY) draw instead of the second pipe's actual gap
(which the source comment "Constrained to second" and resetGame's chaining
show to be the intent).  On bugStream the gaps come out 224, 130, 209,
whereas the spec-faithful chaining (initPipesChained, matching resetGame)
gives 224, 130, 220: the third gap is anchored on the fresh inner draw 304,
not on the second pipe's gap 130. -/
theorem initPipes_unchained_third :
    (initPipes bugStream).map Pipe.gapY = [224, 130, 209] ∧
    (initPipesChained bugStream).map Pipe.gapY = [224, 130, 220] ∧
    (initPipes bugStream).map Pipe.gapY ≠ (initPipesChained bugStream).map Pipe.gapY := by
  refine ⟨?_, ?_, ?_⟩ <;> with_unfolding_all decide

end PoopyPepe
